import Mathlib

/-!
Verification development for the bulk image watermarker
(`src/watermark-v0.1.py`).

The Python program is shallowly embedded below.  Conventions:

* Python `int` is modelled as `ℤ` (arbitrary precision, signed); pixel
  channel values are `ℕ` (8-bit values `0 … 255`).
* Python `float` values (the `scale` parameter and the intermediate
  results of `resize_watermark`) are modelled as `ℚ`; `int(x)` is
  truncation toward zero (`pyInt`), Python `//` is floor division
  (`Int.fdiv`).
* PIL images are modelled as a mode string together with a pixel grid
  (`Img`).  PIL primitives used by the program (`convert`, `split`,
  `putalpha`, `paste`, `ImageEnhance.Brightness`, `resize`) are given
  explicit models; where a primitive's pixel-level behaviour is
  irrelevant to every claim (the Lanczos resampler, text glyph
  rasterisation, palette/grayscale decoding) the model keeps it as an
  explicit function parameter instead of inventing pixel values.
* In-place mutation (PIL's `putalpha` and `paste` mutate `self`) is
  modelled by explicit state passing: each embedded function returns,
  next to its Python return value, the final state of every mutable
  image argument it received.
* File-system and codec effects (`Image.open`, `Image.save`,
  `os.listdir`) are parameters of the embedded functions: an opener, a
  saver, and a directory listing.
-/

namespace WatermarkSpec

/-- One pixel with 8-bit channels; for an image in mode `RGB` the alpha
field is kept at the canonical value 255 (PIL stores no alpha band for
RGB, and our model of `convert` re-establishes this canonical value). -/
structure Pix where
  r : Nat
  g : Nat
  b : Nat
  a : Nat
deriving Repr, DecidableEq

/-- A PIL image: color mode, dimensions, and the pixel grid. -/
structure Img where
  mode : String
  width : Nat
  height : Nat
  px : Nat → Nat → Pix

/-- PIL `Image.new(mode, (w, h), color)`. -/
def Img.new (mode : String) (w h : Nat) (color : Pix) : Img :=
  ⟨mode, w, h, fun _ _ => color⟩

/-- Python `int(x)` on a float: truncation toward zero.  Floats are
modelled as rationals. -/
def pyInt (q : ℚ) : ℤ :=
  if 0 ≤ q then ⌊q⌋ else ⌈q⌉

theorem pyInt_of_nonneg {q : ℚ} (h : 0 ≤ q) : pyInt q = ⌊q⌋ := if_pos h

/-- Python `os.path.join(a, b)` for the cases arising here (joining a
directory with a bare file name). -/
def path_join (a b : String) : String :=
  if b.startsWith "/" then b
  else if a = "" ∨ a.endsWith "/" then a ++ b
  else a ++ "/" ++ b

/-- Dimension arithmetic of `resize_watermark` (src lines 63–64):
`new_width = int(base_image.width * scale)` and
`new_height = int(watermark.height * (new_width / watermark.width))`.
Python's `int(...)` truncates toward zero; the float arithmetic is
modelled exactly over `ℚ`. -/
def resize_dims (wmW wmH baseW : ℕ) (scale : ℚ) : ℤ × ℤ :=
  let newW := pyInt ((baseW : ℚ) * scale)
  let newH := pyInt ((wmH : ℚ) * ((newW : ℚ) / (wmW : ℚ)))
  (newW, newH)

/-- `calculate_position` (src lines 67–76): the five-entry dictionary of
placements, with `positions.get(position, positions['top-right'])` as
the lookup: any string other than the five keys yields the `top-right`
entry.  Python's `//` is floor division, i.e. `Int.fdiv`. -/
def calculate_position (imageW imageH wmW wmH : ℤ) (position : String)
    (padding : ℤ) : ℤ × ℤ :=
  if position = "top-left" then (padding, padding)
  else if position = "top-right" then (imageW - wmW - padding, padding)
  else if position = "bottom-left" then (padding, imageH - wmH - padding)
  else if position = "bottom-right" then
    (imageW - wmW - padding, imageH - wmH - padding)
  else if position = "center" then
    (Int.fdiv (imageW - wmW) 2, Int.fdiv (imageH - wmH) 2)
  else (imageW - wmW - padding, padding)

/-- The five position keys of `calculate_position`'s dictionary. -/
def position_keys : List String :=
  ["top-left", "top-right", "bottom-left", "bottom-right", "center"]

/-- C1 (amended).  For a watermark of positive width and `scale > 0`,
`resize_watermark` computes `newWidth = ⌊baseImage.width * scale⌋` and
`newHeight = ⌊watermark.height * newWidth / watermark.width⌋` — Python's
`int(...)` truncates, it does not round — and the resized height still
matches the exact aspect-ratio-preserving height to within one pixel. -/
theorem resize_dims_spec (wmW wmH baseW : ℕ) (scale : ℚ)
    (hw : 0 < wmW) (hs : 0 < scale) :
    (resize_dims wmW wmH baseW scale).1 = ⌊(baseW : ℚ) * scale⌋ ∧
    (resize_dims wmW wmH baseW scale).2 =
      ⌊(wmH : ℚ) * ((resize_dims wmW wmH baseW scale).1 : ℚ) / (wmW : ℚ)⌋ ∧
    |((resize_dims wmW wmH baseW scale).2 : ℚ) -
      (wmH : ℚ) * ((resize_dims wmW wmH baseW scale).1 : ℚ) / (wmW : ℚ)| < 1 := by
  have hbase : (0 : ℚ) ≤ (baseW : ℚ) * scale := by positivity
  have h1 : (resize_dims wmW wmH baseW scale).1 = ⌊(baseW : ℚ) * scale⌋ := by
    simp [resize_dims, pyInt_of_nonneg hbase]
  have hW0 : (0 : ℤ) ≤ ⌊(baseW : ℚ) * scale⌋ := Int.floor_nonneg.2 hbase
  have hq : (0 : ℚ) ≤ (wmH : ℚ) * ((⌊(baseW : ℚ) * scale⌋ : ℚ) / (wmW : ℚ)) := by
    have : (0 : ℚ) ≤ (⌊(baseW : ℚ) * scale⌋ : ℚ) := by exact_mod_cast hW0
    positivity
  have h2 : (resize_dims wmW wmH baseW scale).2 =
      ⌊(wmH : ℚ) * ((⌊(baseW : ℚ) * scale⌋ : ℚ) / (wmW : ℚ))⌋ := by
    simp [resize_dims, pyInt_of_nonneg hbase, pyInt_of_nonneg hq]
  refine ⟨h1, ?_, ?_⟩
  · rw [h2, h1, mul_div_assoc]
  · rw [h2, h1, mul_div_assoc]
    set q : ℚ := (wmH : ℚ) * ((⌊(baseW : ℚ) * scale⌋ : ℚ) / (wmW : ℚ))
    rw [abs_sub_lt_iff]
    constructor
    · linarith [Int.floor_le q]
    · linarith [Int.sub_one_lt_floor q]

/-- C1 witness: watermark 2×1, base width 6, scale 1/2 — the computed
width is `⌊6 · (1/2)⌋ = 3`. -/
theorem resize_dims_spec_witness :
    (resize_dims 2 1 6 (1/2)).1 = ⌊(6 : ℚ) * (1/2)⌋ :=
  (resize_dims_spec 2 1 6 (1/2) (by norm_num) (by norm_num)).1

/-- C1 counterexample: for a 2×1 watermark, base width 6 and scale 1/2 the
code computes `new_width = 3` and `new_height = int(1 · 3/2) = int(1.5) = 1`,
whereas the claimed formula `round(watermark.height × newWidth / watermark.width)`
gives `round(1.5) = 2`. -/
theorem resize_dims_height_not_round :
    (resize_dims 2 1 6 (1/2)).2 ≠
      round ((1 : ℚ) * ((resize_dims 2 1 6 (1/2)).1 : ℚ) / 2) := by
  norm_num [resize_dims, pyInt, round_eq]

/-- C2.  With nonnegative padding and a watermark that fits inside the
base image with the padding margin on both sides, every one of the five
position modes yields an offset that keeps the watermark's bounding box
inside the base image (no clamping is performed: this falls out of the
placement formulas). -/
theorem calculate_position_in_bounds (baseW baseH wmW wmH padding : ℤ)
    (position : String) (hp : 0 ≤ padding)
    (hx : wmW + 2 * padding ≤ baseW) (hy : wmH + 2 * padding ≤ baseH)
    (hpos : position ∈ position_keys) :
    0 ≤ (calculate_position baseW baseH wmW wmH position padding).1 ∧
    (calculate_position baseW baseH wmW wmH position padding).1 + wmW ≤ baseW ∧
    0 ≤ (calculate_position baseW baseH wmW wmH position padding).2 ∧
    (calculate_position baseW baseH wmW wmH position padding).2 + wmH ≤ baseH := by
  have e1 : Int.fdiv (baseW - wmW) 2 = (baseW - wmW) / 2 :=
    Int.fdiv_eq_ediv _ (by norm_num)
  have e2 : Int.fdiv (baseH - wmH) 2 = (baseH - wmH) / 2 :=
    Int.fdiv_eq_ediv _ (by norm_num)
  simp only [position_keys, List.mem_cons, List.not_mem_nil, or_false] at hpos
  rcases hpos with rfl | rfl | rfl | rfl | rfl <;>
    simp [calculate_position, e1, e2] <;>
    omega

/-- C2 witness: a 20×10 watermark centered on a 100×80 image with padding
10 stays inside the image. -/
theorem calculate_position_in_bounds_witness :
    0 ≤ (calculate_position 100 80 20 10 "center" 10).1 ∧
    (calculate_position 100 80 20 10 "center" 10).1 + 20 ≤ 100 ∧
    0 ≤ (calculate_position 100 80 20 10 "center" 10).2 ∧
    (calculate_position 100 80 20 10 "center" 10).2 + 10 ≤ 80 :=
  calculate_position_in_bounds 100 80 20 10 10 "center"
    (by norm_num) (by norm_num) (by norm_num) (by decide)

/-- C7 (amended).  `calculate_position` returns exactly the table
values, where the `center` entry uses Python's `//`, i.e. floor division
(round toward negative infinity, `Int.fdiv`) — this agrees with
truncating division whenever the watermark is no larger than the base
image, but not in general — and every mode string other than the five
keys yields exactly the `top-right` value. -/
theorem calculate_position_table (baseW baseH wmW wmH padding : ℤ) :
    calculate_position baseW baseH wmW wmH "top-left" padding
      = (padding, padding) ∧
    calculate_position baseW baseH wmW wmH "top-right" padding
      = (baseW - wmW - padding, padding) ∧
    calculate_position baseW baseH wmW wmH "bottom-left" padding
      = (padding, baseH - wmH - padding) ∧
    calculate_position baseW baseH wmW wmH "bottom-right" padding
      = (baseW - wmW - padding, baseH - wmH - padding) ∧
    calculate_position baseW baseH wmW wmH "center" padding
      = (Int.fdiv (baseW - wmW) 2, Int.fdiv (baseH - wmH) 2) ∧
    ∀ position : String, position ∉ position_keys →
      calculate_position baseW baseH wmW wmH position padding
        = (baseW - wmW - padding, padding) := by
  refine ⟨by simp [calculate_position], by simp [calculate_position],
    by simp [calculate_position], by simp [calculate_position],
    by simp [calculate_position], ?_⟩
  intro position h
  simp only [position_keys, List.mem_cons, List.not_mem_nil, or_false,
    not_or] at h
  obtain ⟨h1, h2, h3, h4, h5⟩ := h
  simp [calculate_position, h1, h2, h3, h4, h5]

/-- C7 witness: the unknown mode string "nowhere" gets the top-right
placement. -/
theorem calculate_position_table_witness :
    calculate_position 100 80 20 10 "nowhere" 10 = (70, 10) := by
  have h := (calculate_position_table 100 80 20 10 10).2.2.2.2.2
    "nowhere" (by decide)
  simpa using h

/-- C7 counterexample: on a 5×5 base image with an 8×8 watermark (the
code permits a watermark larger than the base image), the `center` entry
is `(5 - 8) // 2 = -2` by Python's floor division, while the claimed
truncating integer division gives `-1`. -/
theorem calculate_position_center_not_truncating :
    (calculate_position 5 5 8 8 "center" 0).1 ≠ Int.tdiv (5 - 8) 2 := by
  decide

/-- Model of PIL `Image.convert`.  The mode change is exact; the pixel
handling is exact for the conversions the program performs between RGB
and RGBA (RGB→RGBA attaches a fully opaque alpha of 255, RGBA→RGB drops
the alpha band, re-establishing the canonical alpha 255 of an RGB
pixel).  Decoding of other source modes (palette, grayscale) is done by
the external codec library; no claim depends on those pixel values, so
the model leaves such pixels unchanged apart from the canonical alpha. -/
def convert (img : Img) (target : String) : Img :=
  { mode := target
    width := img.width
    height := img.height
    px := fun x y =>
      let p := img.px x y
      if target = "RGBA" ∧ img.mode ≠ "RGBA" then { p with a := 255 }
      else if target = "RGB" then { p with a := 255 }
      else p }

/-- Model of PIL `putalpha`: replaces the alpha band in place (the
program only calls it on an RGBA image). -/
def putalpha (img : Img) (band : Nat → Nat → Nat) : Img :=
  { img with mode := "RGBA", px := fun x y => { img.px x y with a := band x y } }

/-- Per-pixel model of `ImageEnhance.Brightness(band).enhance(t / 255)`
applied to the alpha band: Pillow interpolates the band toward black,
scaling each value by the factor with a truncating float-to-byte cast;
factors above 1 (transparency above 255) are clipped to 255. -/
def enhance_px (a t : Nat) : Nat :=
  min 255 (a * t / 255)

/-- Lines 81–87 of `add_watermark`: convert the watermark to RGBA if it
is not already, split off its alpha band, scale the band by
`transparency / 255` with `ImageEnhance.Brightness`, and put the scaled
band back with `putalpha`. -/
def adjust_transparency (watermark : Img) (transparency : Nat) : Img :=
  let wm := if watermark.mode ≠ "RGBA" then convert watermark "RGBA" else watermark
  let alpha := fun x y => (wm.px x y).a
  putalpha wm (fun x y => enhance_px (alpha x y) transparency)

/-- Pillow's exact divide-by-255 rounding step (the `MULDIV255` macro)
used when `paste` blends through a mask. -/
def muldiv255 (x : Nat) : Nat :=
  (x + 128 + (x + 128) / 256) / 256

/-- One channel of Pillow's masked-paste interpolation
(`BLEND(mask, dest, src)`). -/
def blend_channel (d s m : Nat) : Nat :=
  muldiv255 (d * (255 - m)) + muldiv255 (s * m)

/-- Model of PIL `paste` without a mask: the source (converted to the
destination's mode if it differs) overwrites the destination inside the
pasted box; `paste` mutates the image it is called on, which the
embedding renders by returning the updated destination. -/
def paste (dest src : Img) (pos : ℤ × ℤ) : Img :=
  let s := if src.mode = dest.mode then src else convert src dest.mode
  { dest with px := fun x y =>
      let sx : ℤ := (x : ℤ) - pos.1
      let sy : ℤ := (y : ℤ) - pos.2
      if 0 ≤ sx ∧ sx < (s.width : ℤ) ∧ 0 ≤ sy ∧ sy < (s.height : ℤ) then
        (s.px sx.toNat sy.toNat)
      else dest.px x y }

/-- Model of PIL `paste` with a mask, in the form the program uses: the
RGBA source serves as its own mask, so inside the pasted box each
destination channel is interpolated toward the source channel weighted
by the source pixel's alpha. -/
def paste_masked (dest src : Img) (pos : ℤ × ℤ) : Img :=
  { dest with px := fun x y =>
      let sx : ℤ := (x : ℤ) - pos.1
      let sy : ℤ := (y : ℤ) - pos.2
      if 0 ≤ sx ∧ sx < (src.width : ℤ) ∧ 0 ≤ sy ∧ sy < (src.height : ℤ) then
        let sp := src.px sx.toNat sy.toNat
        let dp := dest.px x y
        ⟨blend_channel dp.r sp.r sp.a, blend_channel dp.g sp.g sp.a,
         blend_channel dp.b sp.b sp.a, blend_channel dp.a sp.a sp.a⟩
      else dest.px x y }

/-- `add_watermark` (src 78–93).  PIL's `putalpha` mutates the image it
is called on and `paste` mutates its receiver, so the embedding returns,
besides the Python return value, the final states of the two image
arguments: `(result, final image argument, final watermark argument)`.
The local rebinding `watermark = watermark.convert('RGBA')` makes the
later `putalpha` hit a fresh converted copy when the argument was not
RGBA; when the argument already was RGBA, `putalpha` mutates the
caller's object.  The base `image` is only read: both `paste` calls
mutate the fresh `transparent` canvas. -/
def add_watermark (image watermark : Img) (position : ℤ × ℤ)
    (transparency : Nat) : Img × Img × Img :=
  let wm := adjust_transparency watermark transparency
  let transparent := Img.new "RGBA" image.width image.height ⟨0, 0, 0, 0⟩
  let canvas := paste transparent image (0, 0)
  let canvas := paste_masked canvas wm position
  (convert canvas "RGB", image,
   if watermark.mode = "RGBA" then wm else watermark)

theorem convert_rgba_px_of_rgba (watermark : Img)
    (h : watermark.mode = "RGBA") (x y : Nat) :
    (convert watermark "RGBA").px x y = watermark.px x y := by
  simp [convert, h]

/-- C3.  The transparency-adjustment stage of `add_watermark` first
converts the watermark to RGBA if needed (a no-op on the pixels of an
already-RGBA watermark) and then multiplies each pixel's existing alpha
by `transparency / 255` (with truncation), leaving the color channels
untouched: an already partially transparent pixel is attenuated further
(the new alpha is at most the old alpha, at most `transparency`, and
strictly below `transparency` whenever the old alpha was below 255 and
the transparency positive) — it is never overwritten with the flat
constant `transparency`. -/
theorem adjust_transparency_spec (watermark : Img) (transparency : Nat)
    (ht : transparency ≤ 255) :
    (adjust_transparency watermark transparency).mode = "RGBA" ∧
    (adjust_transparency watermark transparency).width = watermark.width ∧
    (adjust_transparency watermark transparency).height = watermark.height ∧
    (watermark.mode = "RGBA" →
      ∀ x y : Nat, (convert watermark "RGBA").px x y = watermark.px x y) ∧
    ∀ x y : Nat,
      ((adjust_transparency watermark transparency).px x y).r
          = ((convert watermark "RGBA").px x y).r ∧
      ((adjust_transparency watermark transparency).px x y).g
          = ((convert watermark "RGBA").px x y).g ∧
      ((adjust_transparency watermark transparency).px x y).b
          = ((convert watermark "RGBA").px x y).b ∧
      (((convert watermark "RGBA").px x y).a ≤ 255 →
        ((adjust_transparency watermark transparency).px x y).a
            = ((convert watermark "RGBA").px x y).a * transparency / 255 ∧
        ((adjust_transparency watermark transparency).px x y).a
            ≤ ((convert watermark "RGBA").px x y).a ∧
        ((adjust_transparency watermark transparency).px x y).a ≤ transparency ∧
        (((convert watermark "RGBA").px x y).a < 255 → 0 < transparency →
          ((adjust_transparency watermark transparency).px x y).a
              < transparency)) := by
  have hpx : ∀ x y : Nat,
      ((if watermark.mode ≠ "RGBA" then convert watermark "RGBA"
        else watermark).px x y) = (convert watermark "RGBA").px x y := by
    intro x y
    by_cases h : watermark.mode = "RGBA"
    · simp [h, convert_rgba_px_of_rgba watermark h]
    · simp [h]
  refine ⟨?_, ?_, ?_, fun h x y => convert_rgba_px_of_rgba watermark h x y, ?_⟩
  · by_cases h : watermark.mode = "RGBA" <;>
      simp [adjust_transparency, putalpha, convert, h]
  · by_cases h : watermark.mode = "RGBA" <;>
      simp [adjust_transparency, putalpha, convert, h]
  · by_cases h : watermark.mode = "RGBA" <;>
      simp [adjust_transparency, putalpha, convert, h]
  intro x y
  have hr : ((adjust_transparency watermark transparency).px x y)
      = { (convert watermark "RGBA").px x y with
          a := enhance_px (((convert watermark "RGBA").px x y).a) transparency } := by
    simp only [adjust_transparency, putalpha, hpx]
  refine ⟨by rw [hr], by rw [hr], by rw [hr], ?_⟩
  intro ha
  set a₀ := ((convert watermark "RGBA").px x y).a with ha₀
  have hval : ((adjust_transparency watermark transparency).px x y).a
      = a₀ * transparency / 255 := by
    rw [hr]
    show enhance_px a₀ transparency = a₀ * transparency / 255
    have : a₀ * transparency / 255 ≤ 255 := by
      calc a₀ * transparency / 255 ≤ 255 * 255 / 255 :=
            Nat.div_le_div_right (Nat.mul_le_mul ha ht)
        _ = 255 := by norm_num
    simpa [enhance_px] using Nat.min_eq_right this
  refine ⟨hval, ?_, ?_, ?_⟩
  · rw [hval]
    calc a₀ * transparency / 255 ≤ a₀ * 255 / 255 :=
          Nat.div_le_div_right (Nat.mul_le_mul_left a₀ ht)
      _ = a₀ := Nat.mul_div_cancel a₀ (by norm_num)
  · rw [hval]
    calc a₀ * transparency / 255 ≤ 255 * transparency / 255 :=
          Nat.div_le_div_right (Nat.mul_le_mul_right transparency ha)
      _ = transparency := Nat.mul_div_cancel_left transparency (by norm_num)
  · intro ha' htpos
    rw [hval]
    have h254 : a₀ * transparency ≤ 254 * transparency :=
      Nat.mul_le_mul_right transparency (by omega)
    calc a₀ * transparency / 255 ≤ 254 * transparency / 255 :=
          Nat.div_le_div_right h254
      _ < transparency := by
          rw [Nat.div_lt_iff_lt_mul (by norm_num : (0:ℕ) < 255)]
          omega

/-- C3 witness: a single-pixel RGBA watermark with alpha 200 and
transparency 128 ends with alpha `200·128/255 = 100`, not 128. -/
theorem adjust_transparency_spec_witness :
    ((adjust_transparency (Img.new "RGBA" 1 1 ⟨10, 20, 30, 200⟩) 128).px 0 0).a
        = 100 ∧
    ((adjust_transparency (Img.new "RGBA" 1 1 ⟨10, 20, 30, 200⟩) 128).px 0 0).a
        < 128 := by
  have h := (adjust_transparency_spec (Img.new "RGBA" 1 1 ⟨10, 20, 30, 200⟩) 128
    (by norm_num)).2.2.2.2 0 0
  have h4 := h.2.2.2 (by simp [Img.new, convert])
  refine ⟨?_, h4.2.2.2 (by simp [Img.new, convert]) (by norm_num)⟩
  rw [h4.1]
  simp [Img.new, convert]

/-- C10.  `add_watermark` never mutates its base-image argument (the
composite is assembled on a freshly allocated canvas onto which the base
is only pasted); its watermark argument is left untouched when it is not
RGBA (the RGBA conversion makes a fresh copy which then receives the
`putalpha`), but an already-RGBA watermark argument has its alpha band
overwritten in place by the `putalpha` of the transparency adjustment —
a side effect visible to callers that reuse the object. -/
theorem add_watermark_frame (image watermark : Img) (position : ℤ × ℤ)
    (transparency : Nat) :
    (add_watermark image watermark position transparency).2.1 = image ∧
    (watermark.mode ≠ "RGBA" →
      (add_watermark image watermark position transparency).2.2 = watermark) ∧
    (watermark.mode = "RGBA" →
      (add_watermark image watermark position transparency).2.2
          = adjust_transparency watermark transparency ∧
      ∀ x y : Nat,
        ((add_watermark image watermark position transparency).2.2.px x y).a
            = enhance_px ((watermark.px x y).a) transparency) := by
  refine ⟨rfl, ?_, ?_⟩
  · intro h
    simp [add_watermark, h]
  · intro h
    constructor
    · simp [add_watermark, h]
    · intro x y
      simp only [add_watermark, h, if_pos]
      simp only [adjust_transparency, putalpha, h]
      simp [convert_rgba_px_of_rgba watermark h, h]

/-- C10 witness: pasting with a fully opaque 1×1 RGBA watermark and
transparency 128 leaves the base argument untouched and overwrites the
watermark argument's alpha with `255·128/255 = 128`. -/
theorem add_watermark_frame_witness :
    (add_watermark (Img.new "RGB" 2 2 ⟨1, 2, 3, 255⟩)
        (Img.new "RGBA" 1 1 ⟨10, 20, 30, 255⟩) (0, 0) 128).2.1
      = Img.new "RGB" 2 2 ⟨1, 2, 3, 255⟩ ∧
    ((add_watermark (Img.new "RGB" 2 2 ⟨1, 2, 3, 255⟩)
        (Img.new "RGBA" 1 1 ⟨10, 20, 30, 255⟩) (0, 0) 128).2.2.px 0 0).a
      = 128 := by
  have h := add_watermark_frame (Img.new "RGB" 2 2 ⟨1, 2, 3, 255⟩)
    (Img.new "RGBA" 1 1 ⟨10, 20, 30, 255⟩) (0, 0) 128
  refine ⟨h.1, ?_⟩
  rw [(h.2.2 rfl).2 0 0]
  rfl

/-- Outcome of `PIL.Image.open` on the logo path, split by exception
class, because the `except` clause of `_load_watermark` (src 48) names
`FileNotFoundError` and `AttributeError` only; any other exception the
open can raise (e.g. `PermissionError` for an existing but unreadable
file, or `PIL.UnidentifiedImageError` for a corrupt one — neither is a
`FileNotFoundError`) is not caught there. -/
inductive OpenOutcome where
  | ok (img : Img)
  | fileNotFound
  | attributeError
  | otherError (msg : String)

/-- The font used for the text watermark: `arial.ttf` at size 24 when
the truetype lookup succeeds, PIL's built-in default font on `OSError`
(src 54–57). -/
inductive Font where
  | arial24
  | builtinDefault
deriving DecidableEq

/-- Type of the glyph rasteriser behind `ImageDraw.text`: canvas, text
offset, text, fill color, font ↦ canvas with the text drawn.  Glyph
pixels are produced by the external library, so the embedding keeps the
rasteriser as a parameter and the theorems quantify over it. -/
def DrawText : Type :=
  Img → ℤ × ℤ → String → Pix → Font → Img

/-- `_load_watermark` (src 41–59): if a logo path is set, open it and
return the opened image; on `FileNotFoundError` or `AttributeError`
log a warning (the `Bool` of the result) and fall through to the text
fallback — a fresh 150×50 RGBA canvas filled with the fully transparent
color (255, 255, 255, 0), with `watermark_text` drawn at offset (10, 10)
in fill color (0, 0, 0, 128).  With no logo path the same fallback is
built without a warning.  An exception of any other class escapes the
`except` clause, rendered as `.error`. -/
def load_watermark (logo_path : Option String)
    (openLogo : String → OpenOutcome) (drawText : DrawText)
    (watermark_text : String) (arialOk : Bool) :
    Except String (Img × Bool) :=
  let font := if arialOk then Font.arial24 else Font.builtinDefault
  let fallback := drawText (Img.new "RGBA" 150 50 ⟨255, 255, 255, 0⟩)
      (10, 10) watermark_text ⟨0, 0, 0, 128⟩ font
  match logo_path with
  | some p =>
    match openLogo p with
    | .ok img => .ok (img, false)
    | .fileNotFound => .ok (fallback, true)
    | .attributeError => .ok (fallback, true)
    | .otherError msg => .error msg
  | none => .ok (fallback, false)

/-- Type of the resampling kernel behind `Image.resize(…, LANCZOS)`:
source image and target dimensions ↦ pixel grid.  The resampled pixel
values are computed by the external library; the embedding fixes only
the result's mode and dimensions and quantifies over the kernel. -/
def Resampler : Type := Img → Nat → Nat → Nat → Nat → Pix

/-- `resize_watermark` (src 61–65): target dimensions from
`resize_dims`.  Python raises `ZeroDivisionError` on a zero-width
watermark and PIL's `resize` raises `ValueError` on a negative target
width (reachable when `scale` is negative); both exceptions land in the
caller's `except` handler, hence the `Except` result.  PIL's `resize`
returns a fresh resized copy and never mutates its receiver, so the
second component — the final state of the watermark argument — is the
unchanged argument. -/
def resize_watermark (rs : Resampler) (watermark base_image : Img)
    (scale : ℚ) : Except String Img × Img :=
  if watermark.width = 0 then
    (.error "ZeroDivisionError: division by zero", watermark)
  else
    let d := resize_dims watermark.width watermark.height base_image.width scale
    if d.1 < 0 then
      (.error "ValueError: width and height must be >= 0", watermark)
    else
      (.ok { mode := watermark.mode, width := d.1.toNat, height := d.2.toNat,
             px := fun x y => rs watermark d.1.toNat d.2.toNat x y },
       watermark)

/-- Observable outcome of one `process_image` call: the Python return
value, the log lines written, the final state of the shared watermark
template `self.watermark_img`, and the composited image handed to
`save` (when control reached the save call). -/
structure ProcResult where
  result : Option String
  logs : List String
  template : Img
  saved : Option Img

/-- `process_image` (src 95–117).  `Image.open`, `Image.save` and the
resampler are external effects passed as parameters.  Every failure of
a pipeline stage is an exception that lands in the
`except Exception as e` handler, which logs
`Error processing <filename>: <e>` and returns `None`; on success the
joined output path is returned. -/
def process_image (watermark_img : Img) (rs : Resampler)
    (input_dir output_dir filename : String)
    (openImage : String → Except String Img)
    (saveImage : Img → String → Except String Unit)
    (scale : ℚ) (position : String) (transparency : Nat) : ProcResult :=
  let img_path := path_join input_dir filename
  match openImage img_path with
  | .error e => ⟨none, [s!"Error processing {filename}: {e}"], watermark_img, none⟩
  | .ok img0 =>
    let w := img0.width
    let h := img0.height
    let m := img0.mode
    let log1 := s!"Processing {filename}: ({w}, {h}), {m}"
    let img := if img0.mode ≠ "RGB" then convert img0 "RGB" else img0
    let rz := resize_watermark rs watermark_img img scale
    match rz.1 with
    | .error e => ⟨none, [log1, s!"Error processing {filename}: {e}"], rz.2, none⟩
    | .ok scaled =>
      let wpos := calculate_position (img.width : ℤ) (img.height : ℤ)
        (scaled.width : ℤ) (scaled.height : ℤ) position 10
      let watermarked := (add_watermark img scaled wpos transparency).1
      let output_path := path_join output_dir filename
      match saveImage watermarked output_path with
      | .error e =>
        ⟨none, [log1, s!"Error processing {filename}: {e}"], rz.2, some watermarked⟩
      | .ok _ =>
        ⟨some output_path, [log1, s!"Successfully processed: {filename}"], rz.2,
         some watermarked⟩

/-- ASCII case folding of one character, the fragment of `str.lower`
exercised by the extension comparison. -/
def lowerChar (c : Char) : Char :=
  if 'A' ≤ c ∧ c ≤ 'Z' then Char.ofNat (c.toNat + 32) else c

/-- `str.lower` restricted to ASCII case folding (file extensions are
ASCII). -/
def lower (s : String) : String :=
  String.mk (s.data.map lowerChar)

/-- Suffix of a character list starting at its last `'.'`, or `[]` when
there is no dot. -/
def lastDotSuffix : List Char → List Char
  | [] => []
  | c :: rest =>
    let e := lastDotSuffix rest
    if e.isEmpty then (if c = '.' then c :: rest else []) else e

/-- `os.path.splitext(filename)[1]` for a bare file name (entries of
`os.listdir` contain no path separator): the extension starts at the
last dot, except that the leading dots of a hidden file never begin an
extension (`splitext(".png") = (".png", "")`). -/
def splitext_ext (filename : String) : String :=
  String.mk (lastDotSuffix (filename.data.dropWhile (· = '.')))

/-- The supported-extension set of `process_directory` (src 122). -/
def supported_formats : List String :=
  [".png", ".jpg", ".jpeg", ".bmp", ".webp"]

/-- The filter of the `process_directory` loop (src 127):
`os.path.splitext(filename)[1].lower() in supported_formats`. -/
def keep_file (filename : String) : Bool :=
  supported_formats.contains (lower (splitext_ext filename))

/-- Python truthiness of the `Optional[str]` result tested by
`if result:` (src 129): `None` and the empty string are falsy. -/
def truthy : Option String → Bool
  | some s => s != ""
  | none => false

/-- The loop of `process_directory` (src 126–134), generic in the state
`σ` threaded through the per-file calls (the watermarker object state,
i.e. the watermark template): enumerate the listing in order, skip
entries whose lowered extension is unsupported, call `step` on each kept
entry, and bump the success counter on a truthy result, the failure
counter otherwise. -/
def process_directory_go {σ : Type} (step : σ → String → Option String × σ) :
    List String → σ → Nat × Nat → (Nat × Nat) × σ
  | [], s, acc => (acc, s)
  | f :: rest, s, acc =>
    if keep_file f then
      let r := step s f
      if truthy r.1 then process_directory_go step rest r.2 (acc.1 + 1, acc.2)
      else process_directory_go step rest r.2 (acc.1, acc.2 + 1)
    else process_directory_go step rest s acc

/-- `process_directory` (src 119–134) with the per-file processing
abstracted: `proc f` stands for `self.process_image(f, scale, position,
transparency)` (which does not change the object state, proved
separately on the full pipeline). -/
def process_directory (proc : String → Option String)
    (listing : List String) : Nat × Nat :=
  (process_directory_go (fun (_ : Unit) f => (proc f, ())) listing () (0, 0)).1

/-- The directory driver running the real per-file pipeline, with the
watermark template threaded through as the mutable object state. -/
def process_directory_st (watermark_img : Img) (rs : Resampler)
    (input_dir output_dir : String) (openImage : String → Except String Img)
    (saveImage : Img → String → Except String Unit) (listing : List String)
    (scale : ℚ) (position : String) (transparency : Nat) :
    (Nat × Nat) × Img :=
  process_directory_go
    (fun wm f =>
      let r := process_image wm rs input_dir output_dir f openImage saveImage
        scale position transparency
      (r.result, r.template))
    listing watermark_img (0, 0)

/-- A concrete rasteriser instance, used only to evaluate the model on
closed inputs (the theorems quantify over every rasteriser). -/
def sampleDraw : DrawText := fun canvas _ _ _ _ => canvas

/-- C4 (amended).  When the logo file is missing (`FileNotFoundError`)
or the open raises `AttributeError`, watermark loading does not abort:
`_load_watermark` returns the synthesized fallback — the given text
drawn at offset (10, 10) with fill color (0, 0, 0) and alpha 128 onto a
150×50 fully transparent RGBA canvas — and a warning is logged; the
same fallback without a warning is returned when no logo path is given,
and a successfully opened logo is returned verbatim.  Open failures of
any other class (e.g. an existing but unreadable or corrupt file) are
not caught and propagate. -/
theorem load_watermark_fallback_spec (path : Option String)
    (openLogo : String → OpenOutcome) (drawText : DrawText)
    (text : String) (arialOk : Bool) :
    (∀ p, path = some p →
      openLogo p = .fileNotFound ∨ openLogo p = .attributeError →
      load_watermark path openLogo drawText text arialOk
        = .ok (drawText (Img.new "RGBA" 150 50 ⟨255, 255, 255, 0⟩) (10, 10)
            text ⟨0, 0, 0, 128⟩
            (if arialOk then Font.arial24 else Font.builtinDefault), true)) ∧
    (path = none →
      load_watermark path openLogo drawText text arialOk
        = .ok (drawText (Img.new "RGBA" 150 50 ⟨255, 255, 255, 0⟩) (10, 10)
            text ⟨0, 0, 0, 128⟩
            (if arialOk then Font.arial24 else Font.builtinDefault), false)) ∧
    (∀ p img, path = some p → openLogo p = .ok img →
      load_watermark path openLogo drawText text arialOk = .ok (img, false)) ∧
    (∀ p msg, path = some p → openLogo p = .otherError msg →
      load_watermark path openLogo drawText text arialOk = .error msg) := by
  refine ⟨?_, ?_, ?_, ?_⟩
  · rintro p rfl (h | h) <;> simp [load_watermark, h]
  · rintro rfl
    simp [load_watermark]
  · rintro p img rfl h
    simp [load_watermark, h]
  · rintro p msg rfl h
    simp [load_watermark, h]

/-- C4 witness: a missing logo file yields the text fallback with a
warning. -/
theorem load_watermark_fallback_spec_witness :
    load_watermark (some "logo.png") (fun _ => OpenOutcome.fileNotFound)
      sampleDraw "Watermark" true
      = .ok (sampleDraw (Img.new "RGBA" 150 50 ⟨255, 255, 255, 0⟩) (10, 10)
          "Watermark" ⟨0, 0, 0, 128⟩ Font.arial24, true) := by
  have h := (load_watermark_fallback_spec (some "logo.png")
    (fun _ => OpenOutcome.fileNotFound) sampleDraw "Watermark" true).1
    "logo.png" rfl (Or.inl rfl)
  simpa using h

/-- C4 counterexample: with a logo path set and `Image.open` failing
with an exception that is neither `FileNotFoundError` nor
`AttributeError` — e.g. `PermissionError` for an existing but
unreadable logo file — `_load_watermark` does not degrade to the text
fallback: the `except` clause (src 48) names only those two classes,
so the exception escapes and watermark loading aborts. -/
theorem load_watermark_unreadable_aborts :
    load_watermark (some "logo.png")
      (fun _ => OpenOutcome.otherError "PermissionError") sampleDraw
      "Watermark" true
      = .error "PermissionError" := rfl

/-- C5.  `process_image` never lets a pipeline error escape: its result
is always either `None` or the joined output path
`output_dir/<same filename>`; a failed open is caught, logged with the
filename and the error detail, and reported as `None`; a failed save
likewise; and a successful save returns the output path. -/
theorem process_image_boundary_spec (watermark_img : Img) (rs : Resampler)
    (input_dir output_dir filename : String)
    (openImage : String → Except String Img)
    (saveImage : Img → String → Except String Unit)
    (scale : ℚ) (position : String) (transparency : Nat) :
    ((process_image watermark_img rs input_dir output_dir filename openImage
        saveImage scale position transparency).result = none ∨
      (process_image watermark_img rs input_dir output_dir filename openImage
        saveImage scale position transparency).result
          = some (path_join output_dir filename)) ∧
    (∀ p, (process_image watermark_img rs input_dir output_dir filename
        openImage saveImage scale position transparency).result = some p →
      p = path_join output_dir filename) ∧
    (∀ e, openImage (path_join input_dir filename) = .error e →
      (process_image watermark_img rs input_dir output_dir filename openImage
        saveImage scale position transparency).result = none ∧
      s!"Error processing {filename}: {e}"
        ∈ (process_image watermark_img rs input_dir output_dir filename
            openImage saveImage scale position transparency).logs) ∧
    (∀ i e, (process_image watermark_img rs input_dir output_dir filename
        openImage saveImage scale position transparency).saved = some i →
      saveImage i (path_join output_dir filename) = .error e →
      (process_image watermark_img rs input_dir output_dir filename openImage
        saveImage scale position transparency).result = none ∧
      s!"Error processing {filename}: {e}"
        ∈ (process_image watermark_img rs input_dir output_dir filename
            openImage saveImage scale position transparency).logs) ∧
    (∀ i, (process_image watermark_img rs input_dir output_dir filename
        openImage saveImage scale position transparency).saved = some i →
      saveImage i (path_join output_dir filename) = .ok () →
      (process_image watermark_img rs input_dir output_dir filename openImage
        saveImage scale position transparency).result
          = some (path_join output_dir filename)) := by
  cases hop : openImage (path_join input_dir filename) with
  | error e0 =>
    refine ⟨?_, ?_, ?_, ?_, ?_⟩ <;>
      simp [process_image, hop]
  | ok img0 =>
    cases hrz : (resize_watermark rs watermark_img
        (if img0.mode = "RGB" then img0 else convert img0 "RGB") scale).1 with
    | error e1 =>
      refine ⟨?_, ?_, ?_, ?_, ?_⟩ <;>
        simp [process_image, hop, hrz]
    | ok scaled =>
      set W := (add_watermark (if img0.mode = "RGB" then img0 else convert img0 "RGB")
          scaled
          (calculate_position
            ((if img0.mode = "RGB" then img0 else convert img0 "RGB").width : ℤ)
            ((if img0.mode = "RGB" then img0 else convert img0 "RGB").height : ℤ)
            (scaled.width : ℤ) (scaled.height : ℤ) position 10)
          transparency).1 with hW
      cases hsv : saveImage W (path_join output_dir filename) with
      | error e2 =>
        refine ⟨?_, ?_, ?_, ?_, ?_⟩
        · simp [process_image, hop, hrz, ← hW, hsv]
        · simp [process_image, hop, hrz, ← hW, hsv]
        · simp [process_image, hop, hrz, ← hW, hsv]
        · intro i e hi hsave
          have hiW : W = i := by
            simpa [process_image, hop, hrz, ← hW, hsv] using hi
          rw [← hiW, hsv] at hsave
          obtain rfl : e2 = e := by injection hsave
          simp [process_image, hop, hrz, ← hW, hsv]
        · intro i hi hsave
          have hiW : W = i := by
            simpa [process_image, hop, hrz, ← hW, hsv] using hi
          rw [← hiW, hsv] at hsave
          exact absurd hsave (by simp)
      | ok u =>
        cases u
        refine ⟨?_, ?_, ?_, ?_, ?_⟩
        · simp [process_image, hop, hrz, ← hW, hsv]
        · simp [process_image, hop, hrz, ← hW, hsv]
        · simp [process_image, hop, hrz, ← hW, hsv]
        · intro i e hi hsave
          have hiW : W = i := by
            simpa [process_image, hop, hrz, ← hW, hsv] using hi
          rw [← hiW, hsv] at hsave
          exact absurd hsave (by simp)
        · simp [process_image, hop, hrz, ← hW, hsv]

/-- A resampler instance for evaluating the model on closed inputs. -/
def sampleResampler : Resampler := fun i _ _ x y => i.px x y

/-- C5 witness: a failing open is caught, logged with the filename, and
reported as `None`. -/
theorem process_image_boundary_spec_witness :
    (process_image (Img.new "RGBA" 2 2 ⟨0, 0, 0, 255⟩) sampleResampler
        "in" "out" "a.png" (fun _ => .error "boom") (fun _ _ => .ok ())
        (1/10) "top-right" 128).result = none ∧
    "Error processing a.png: boom"
      ∈ (process_image (Img.new "RGBA" 2 2 ⟨0, 0, 0, 255⟩) sampleResampler
          "in" "out" "a.png" (fun _ => .error "boom") (fun _ _ => .ok ())
          (1/10) "top-right" 128).logs := by
  have h := (process_image_boundary_spec (Img.new "RGBA" 2 2 ⟨0, 0, 0, 255⟩)
    sampleResampler "in" "out" "a.png" (fun _ => .error "boom")
    (fun _ _ => .ok ()) (1/10) "top-right" 128).2.2.1 "boom" rfl
  exact ⟨h.1, by simpa using h.2⟩

/-- C6.  The image `process_image` hands to `save` is always in RGB
mode: a non-RGB source is converted to RGB before compositing (an
already-RGB source is used as is), and `add_watermark` converts its
final composite to RGB, discarding the alpha channel. -/
theorem process_image_saves_rgb (watermark_img : Img) (rs : Resampler)
    (input_dir output_dir filename : String)
    (openImage : String → Except String Img)
    (saveImage : Img → String → Except String Unit)
    (scale : ℚ) (position : String) (transparency : Nat) :
    (∀ img : Img,
      (if img.mode ≠ "RGB" then convert img "RGB" else img).mode = "RGB") ∧
    (∀ (i wm : Img) (p : ℤ × ℤ) (t : Nat),
      (add_watermark i wm p t).1.mode = "RGB") ∧
    (process_image watermark_img rs input_dir output_dir filename openImage
        saveImage scale position transparency).saved.map Img.mode
      = (process_image watermark_img rs input_dir output_dir filename openImage
          saveImage scale position transparency).saved.map (fun _ => "RGB") := by
  have hnorm : ∀ img : Img,
      (if img.mode ≠ "RGB" then convert img "RGB" else img).mode = "RGB" := by
    intro img
    by_cases h : img.mode = "RGB" <;> simp [convert, h]
  have hadd : ∀ (i wm : Img) (p : ℤ × ℤ) (t : Nat),
      (add_watermark i wm p t).1.mode = "RGB" := fun _ _ _ _ => rfl
  refine ⟨hnorm, hadd, ?_⟩
  cases hop : openImage (path_join input_dir filename) with
  | error e0 => simp [process_image, hop]
  | ok img0 =>
    cases hrz : (resize_watermark rs watermark_img
        (if img0.mode = "RGB" then img0 else convert img0 "RGB") scale).1 with
    | error e1 => simp [process_image, hop, hrz]
    | ok scaled =>
      simp [process_image, hop, hrz]
      split <;> simp [hadd]

/-- `resize` returns a fresh image; the watermark argument passed to it
comes back unchanged in every branch. -/
theorem resize_watermark_preserves_arg (rs : Resampler)
    (watermark base_image : Img) (scale : ℚ) :
    (resize_watermark rs watermark base_image scale).2 = watermark := by
  by_cases h0 : watermark.width = 0
  · simp [resize_watermark, h0]
  · by_cases hneg : (resize_dims watermark.width watermark.height
        base_image.width scale).1 < 0 <;>
      simp [resize_watermark, h0, hneg]

theorem process_image_template_eq (watermark_img : Img) (rs : Resampler)
    (input_dir output_dir filename : String)
    (openImage : String → Except String Img)
    (saveImage : Img → String → Except String Unit)
    (scale : ℚ) (position : String) (transparency : Nat) :
    (process_image watermark_img rs input_dir output_dir filename openImage
        saveImage scale position transparency).template = watermark_img := by
  cases hop : openImage (path_join input_dir filename) with
  | error e0 => simp [process_image, hop]
  | ok img0 =>
    cases hrz : (resize_watermark rs watermark_img
        (if img0.mode = "RGB" then img0 else convert img0 "RGB") scale).1 with
    | error e1 =>
      simp [process_image, hop, hrz, resize_watermark_preserves_arg]
    | ok scaled =>
      cases hsv : saveImage
          ((add_watermark (if img0.mode = "RGB" then img0 else convert img0 "RGB")
            scaled
            (calculate_position
              ((if img0.mode = "RGB" then img0 else convert img0 "RGB").width : ℤ)
              ((if img0.mode = "RGB" then img0 else convert img0 "RGB").height : ℤ)
              (scaled.width : ℤ) (scaled.height : ℤ) position 10)
            transparency).1)
          (path_join output_dir filename) with
      | error e2 =>
        simp [process_image, hop, hrz, hsv, resize_watermark_preserves_arg]
      | ok u =>
        simp [process_image, hop, hrz, hsv, resize_watermark_preserves_arg]

theorem process_directory_go_state {σ : Type}
    (step : σ → String → Option String × σ)
    (hstep : ∀ (s : σ) (f : String), (step s f).2 = s) :
    ∀ (listing : List String) (s : σ) (acc : Nat × Nat),
      (process_directory_go step listing s acc).2 = s := by
  intro listing
  induction listing with
  | nil => intro s acc; rfl
  | cons f rest ih =>
    intro s acc
    by_cases hk : keep_file f
    · by_cases ht : truthy (step s f).1 <;>
        simp [process_directory_go, hk, ht, hstep, ih]
    · simp [process_directory_go, hk, ih]

/-- C9.  The shared watermark template `self.watermark_img` is never
mutated: each `process_image` call resizes it into a fresh per-call
copy (and `add_watermark`'s in-place alpha adjustment only touches that
copy), so the template that comes out of a single call — and out of a
whole directory run over any listing — is exactly the template that
went in. -/
theorem watermark_template_immutable (watermark_img : Img) (rs : Resampler)
    (input_dir output_dir : String)
    (openImage : String → Except String Img)
    (saveImage : Img → String → Except String Unit)
    (listing : List String)
    (scale : ℚ) (position : String) (transparency : Nat) :
    (∀ filename : String,
      (process_image watermark_img rs input_dir output_dir filename openImage
          saveImage scale position transparency).template = watermark_img) ∧
    (process_directory_st watermark_img rs input_dir output_dir openImage
        saveImage listing scale position transparency).2 = watermark_img := by
  refine ⟨fun filename => process_image_template_eq watermark_img rs input_dir
    output_dir filename openImage saveImage scale position transparency, ?_⟩
  exact process_directory_go_state _
    (fun wm f => process_image_template_eq wm rs input_dir output_dir f
      openImage saveImage scale position transparency)
    listing watermark_img (0, 0)

theorem truthy_eq_isSome {proc : String → Option String}
    (h : ∀ f s, proc f = some s → s ≠ "") (f : String) :
    truthy (proc f) = (proc f).isSome := by
  cases hp : proc f with
  | none => rfl
  | some s =>
    have hs := h f s hp
    simp [truthy, hs]

theorem process_directory_go_count (proc : String → Option String)
    (h : ∀ f s, proc f = some s → s ≠ "") :
    ∀ (listing : List String) (a b : Nat),
      (process_directory_go (fun (_ : Unit) f => (proc f, ())) listing ()
          (a, b)).1
        = (a + (listing.filter keep_file).countP (fun f => (proc f).isSome),
           b + (listing.filter keep_file).countP (fun f => (proc f).isNone)) := by
  intro listing
  induction listing with
  | nil => intro a b; simp [process_directory_go]
  | cons f rest ih =>
    intro a b
    by_cases hk : keep_file f
    · rw [process_directory_go, if_pos hk]
      cases hp : proc f with
      | none =>
        rw [if_neg (by simp [truthy, hp])]
        simp [List.filter_cons, hk, List.countP_cons, hp, ih]
        omega
      | some s =>
        rw [if_pos (by simp [truthy, bne_iff_ne]; exact h f s hp)]
        simp [List.filter_cons, hk, List.countP_cons, hp, ih]
        omega
    · rw [process_directory_go, if_neg hk]
      simp [List.filter_cons, hk, ih]

theorem process_directory_go_trace (proc : String → Option String) :
    ∀ (listing acc : List String) (a b : Nat),
      (process_directory_go (fun acc f => (proc f, acc ++ [f])) listing acc
          (a, b)).2
        = acc ++ listing.filter keep_file := by
  intro listing
  induction listing with
  | nil => intro acc a b; simp [process_directory_go]
  | cons f rest ih =>
    intro acc a b
    by_cases hk : keep_file f
    · by_cases ht : truthy (proc f) <;>
        simp [process_directory_go, hk, ht, ih, List.filter_cons]
    · simp [process_directory_go, hk, ih, List.filter_cons]

/-- C8.  `process_directory` looks exactly at the listing entries whose
extension (via `os.path.splitext`, compared lowercased) is one of
`.png .jpg .jpeg .bmp .webp`, invokes the per-file processing once for
each kept entry in enumeration order (the trace of invoked files equals
the kept sublist), never stops early, and returns the number of calls
that produced a (nonempty) path and the number that produced `None`.
The hypothesis records that `process_image` never returns an empty
string (its success value is a joined path), which Python's `if result:`
would count as a failure. -/
theorem process_directory_spec (proc : String → Option String)
    (listing : List String)
    (h : ∀ f s, proc f = some s → s ≠ "") :
    process_directory proc listing
      = ((listing.filter keep_file).countP (fun f => (proc f).isSome),
         (listing.filter keep_file).countP (fun f => (proc f).isNone)) ∧
    (process_directory_go (fun acc f => (proc f, acc ++ [f])) listing []
        (0, 0)).2
      = listing.filter keep_file := by
  constructor
  · have hc := process_directory_go_count proc h listing 0 0
    simpa [process_directory] using hc
  · simpa using process_directory_go_trace proc listing [] 0 0

/-- C8 witness: among `["a.PNG", "b.txt", "c.jpg", ".png", "d.Jpeg"]`
the kept files are `a.PNG`, `c.jpg` and `d.Jpeg` (case-insensitive
extension match; `b.txt` is unsupported and the hidden file `.png` has
no extension); with `c.jpg` failing, the counts are (2, 1). -/
theorem process_directory_spec_witness :
    process_directory
      (fun f => if f = "c.jpg" then none else some "out/x.png")
      ["a.PNG", "b.txt", "c.jpg", ".png", "d.Jpeg"] = (2, 1) := by
  have hne : ∀ f s : String,
      (if f = "c.jpg" then none else some "out/x.png") = some s → s ≠ "" := by
    intro f s hfs
    by_cases hf : f = "c.jpg"
    · simp [hf] at hfs
    · simp only [hf, if_false, Option.some.injEq] at hfs
      rw [← hfs]
      decide
  have h := (process_directory_spec
    (fun f => if f = "c.jpg" then none else some "out/x.png")
    ["a.PNG", "b.txt", "c.jpg", ".png", "d.Jpeg"] hne).1
  rw [h]
  decide

end WatermarkSpec
